import Mathlib

/-! Shallow embedding of the query-to-tool-invocation pipeline of
`src/client2.py` (class MCPClient): intent dispatch, the per-tool argument
extraction regexes of `process_query` embedded with their exact
backtracking semantics, tool-result trace formatting, the extension check
of `connect_to_server`, and one iteration of `chat_loop`.  Text is modeled
as lists of characters; Python `str.lower`, `str.strip`, the `\s` and `\d`
classes and `re.IGNORECASE` are modeled over ASCII, and queries are single
lines (they come from `input()`, which strips the newline), so `$` is end
of string and `.` and `[^,]` never meet a newline. -/

namespace Client2

/-- Python whitespace class `\s` (ASCII part), also used by `str.strip`. -/
def pyWS (c : Char) : Bool :=
  c == ' ' || c == '\t' || c == '\n' || c == '\x0d' || c == '\x0b' || c == '\x0c'

/-- One pattern character (given in lowercase) matches one subject
character under `re.IGNORECASE` (ASCII). -/
def chCI (p c : Char) : Bool :=
  decide (p = c ∨ ('A' ≤ c ∧ c ≤ 'Z' ∧ c.toNat + 32 = p.toNat))

/-- Case-insensitive literal prefix match; the pattern is lowercase. -/
def preCI : List Char → List Char → Bool
  | [], _ => true
  | _ :: _, [] => false
  | p :: ps, c :: cs => chCI p c && preCI ps cs

/-- Exact (case-sensitive) prefix match. -/
def listPre : List Char → List Char → Bool
  | [], _ => true
  | _ :: _, [] => false
  | p :: ps, c :: cs => decide (p = c) && listPre ps cs

/-- Python's `pat in s` substring test (exact case), used for the
advisory-marker checks on lines 89 and 128. -/
def containsSub (pat : List Char) : List Char → Bool
  | [] => pat.isEmpty
  | c :: cs => listPre pat (c :: cs) || containsSub pat cs

/-- `pat in query.lower()` for a lowercase ASCII pattern: substring test,
case-insensitive on the subject.  Models lines 89 and 128. -/
def containsCI (pat : List Char) : List Char → Bool
  | [] => pat.isEmpty
  | c :: cs => preCI pat (c :: cs) || containsCI pat cs

/-- Case-insensitive whole-string equality against a lowercase pattern;
models `query.lower() == pat` for ASCII. -/
def strEqCI : List Char → List Char → Bool
  | [], [] => true
  | [], _ :: _ => false
  | _ :: _, [] => false
  | p :: ps, c :: cs => chCI p c && strEqCI ps cs

/-- Python `str.strip()` (ASCII whitespace). -/
def pyStrip (l : List Char) : List Char :=
  ((l.dropWhile pyWS).reverse.dropWhile pyWS).reverse

def stripStr (s : String) : String := String.mk (pyStrip s.data)

/-- `int` applied to a run of decimal digits. -/
def digitsVal (l : List Char) : Nat :=
  l.foldl (fun a c => 10 * a + (c.toNat - 48)) 0

/- ------------------------------------------------------------------
Intent dispatch: lines 89 and 128 of `process_query`.
------------------------------------------------------------------ -/

def createMarker : List Char := "[Use tool: create_employee]".data

def sumMarker : List Char := "[Use tool: sum_numbers]".data

/-- Line 89: `"employee" in query.lower() or "create" in query.lower() or
"[Use tool: create_employee]" in response.text`. -/
def createTrigger (q advisory : String) : Bool :=
  containsCI "employee".data q.data || containsCI "create".data q.data ||
    containsSub createMarker advisory.data

/-- Line 128: `"[Use tool: sum_numbers]" in response.text or "add" in
query.lower() or "sum" in query.lower() or "plus" in query.lower()`. -/
def sumTrigger (q advisory : String) : Bool :=
  containsSub sumMarker advisory.data || containsCI "add".data q.data ||
    containsCI "sum".data q.data || containsCI "plus".data q.data

inductive Intent where
  | createEmployee
  | sumNumbers
  | direct
  deriving DecidableEq

/-- The if/elif/else dispatch of `process_query` (lines 89, 128, 147). -/
def classify (q advisory : String) : Intent :=
  if createTrigger q advisory = true then .createEmployee
  else if sumTrigger q advisory = true then .sumNumbers
  else .direct

/- ------------------------------------------------------------------
Employee-name extraction, line 94:
`re.search(r'(?:name|named)\s+([^,]+?)(?:,|\s+nif|\s+date|\s+and|$)',
           query, re.IGNORECASE)`.
The terminator alternation `,|\s+nif|\s+date|\s+and|$`: the keyword
branches need at least one whitespace character and then the keyword; the
keywords start with non-whitespace, so only the maximal whitespace run can
precede them.
------------------------------------------------------------------ -/

/-- Does the terminator `(?:,|\s+nif|\s+date|\s+and|$)` match at this
point of the subject? -/
def nameTermCheck : List Char → Bool
  | [] => true
  | c :: cs =>
    decide (c = ',') ||
      (pyWS c &&
        (preCI "nif".data ((c :: cs).dropWhile pyWS) ||
         preCI "date".data ((c :: cs).dropWhile pyWS) ||
         preCI "and".data ((c :: cs).dropWhile pyWS)))

/-- The lazy capture `([^,]+?)` followed by the terminator: consume one
non-comma character at a time (shortest first, as the lazy quantifier
backtracks) and stop as soon as the terminator matches. -/
def capGo (acc : List Char) : List Char → Option (List Char)
  | [] => none
  | c :: cs =>
    if c = ',' then none
    else if nameTermCheck cs = true then some (c :: acc).reverse
    else capGo (c :: acc) cs

def tryCap (u : List Char) : Option (List Char) := capGo [] u

/-- The greedy `\s+` before the capture: try consuming `k` whitespace
characters for `k` from the maximal run length down to 1 (greedy
quantifiers give characters back one at a time on failure). -/
def wsBack (t : List Char) : Nat → Option (List Char)
  | 0 => none
  | k + 1 =>
    match tryCap (t.drop (k + 1)) with
    | some r => some r
    | none => wsBack t k

/-- `\s+([^,]+?)(?:,|\s+nif|\s+date|\s+and|$)` matched at the front of
`t`. -/
def nameRest (t : List Char) : Option (List Char) :=
  wsBack t (t.takeWhile pyWS).length

/-- Leftmost search for `(?:name|named)\s+...`: Python tries `name` before
`named`, but since the next pattern item is `\s+`, the `name` branch can
succeed only when the fifth character is whitespace (so not `d`), and the
`named` branch only when it is `d`; the two branches never compete. -/
def nameSearch : List Char → Option (List Char)
  | [] => none
  | c :: cs =>
    if preCI "named".data (c :: cs) = true then
      match nameRest ((c :: cs).drop 5) with
      | some r => some r
      | none => nameSearch cs
    else if preCI "name".data (c :: cs) = true then
      match nameRest ((c :: cs).drop 4) with
      | some r => some r
      | none => nameSearch cs
    else nameSearch cs

/-- `name_match.group(1)` of line 94, if any. -/
def extractName (q : String) : Option (List Char) := nameSearch q.data

/- ------------------------------------------------------------------
NIF extraction, line 99: `re.search(r'nif\s+(\d+)', query, re.IGNORECASE)`.
------------------------------------------------------------------ -/

/-- `\s+(\d+)` at the front of `t`: at least one whitespace character,
then a maximal digit run (digits are not whitespace, so only the maximal
whitespace run can precede the first digit). -/
def nifRest (t : List Char) : Option Nat :=
  match t.dropWhile pyWS with
  | [] => none
  | c :: cs =>
    if 1 ≤ (t.takeWhile pyWS).length ∧ c.isDigit = true
    then some (digitsVal ((c :: cs).takeWhile Char.isDigit))
    else none

def nifSearch : List Char → Option Nat
  | [] => none
  | c :: cs =>
    if preCI "nif".data (c :: cs) = true then
      match nifRest ((c :: cs).drop 3) with
      | some v => some v
      | none => nifSearch cs
    else nifSearch cs

/-- `int(nif_match.group(1)) if nif_match else 0` (line 100). -/
def nifVal (q : String) : Nat :=
  match nifSearch q.data with
  | some v => v
  | none => 0

/- ------------------------------------------------------------------
Date extraction, line 104:
`re.search(r'date\s+of\s+birth\s+(\d{2}/\d{2}/\d{4})', query,
           re.IGNORECASE)`, reordered on line 107 to `year-month-day`.
------------------------------------------------------------------ -/

/-- `\s+` then the lowercase literal `pat`; returns the remainder. -/
def wsThenCI (pat : List Char) (t : List Char) : Option (List Char) :=
  if 1 ≤ (t.takeWhile pyWS).length ∧ preCI pat (t.dropWhile pyWS) = true
  then some ((t.dropWhile pyWS).drop pat.length)
  else none

/-- `\d\x7bn\x7d`: exactly `n` digits; returns them and the remainder. -/
def takeDigits (n : Nat) (t : List Char) : Option (List Char × List Char) :=
  if (t.take n).length = n ∧ (t.take n).all Char.isDigit = true
  then some (t.take n, t.drop n)
  else none

/-- A literal `/` at the front of `t`; returns the remainder. -/
def slashThen (t : List Char) : Option (List Char) :=
  match t with
  | c :: cs => if c = '/' then some cs else none
  | [] => none

/-- `(\d{2}/\d{2}/\d{4})` at the front of `t`, as (day, month, year). -/
def dateDigits (t : List Char) : Option (List Char × List Char × List Char) :=
  match takeDigits 2 t with
  | none => none
  | some (dd, r1) =>
    match slashThen r1 with
    | none => none
    | some r2 =>
      match takeDigits 2 r2 with
      | none => none
      | some (mm, r3) =>
        match slashThen r3 with
        | none => none
        | some r4 =>
          match takeDigits 4 r4 with
          | none => none
          | some (yy, _) => some (dd, mm, yy)

/-- `\s+of\s+birth\s+(\d{2}/\d{2}/\d{4})` at the front of `t` (the part
after the literal `date`). -/
def dateAt (t : List Char) : Option (List Char × List Char × List Char) :=
  match wsThenCI "of".data t with
  | none => none
  | some t1 =>
    match wsThenCI "birth".data t1 with
    | none => none
    | some t2 =>
      if 1 ≤ (t2.takeWhile pyWS).length
      then dateDigits (t2.dropWhile pyWS)
      else none

def dateSearch : List Char → Option (List Char × List Char × List Char)
  | [] => none
  | c :: cs =>
    if preCI "date".data (c :: cs) = true then
      match dateAt ((c :: cs).drop 4) with
      | some v => some v
      | none => dateSearch cs
    else dateSearch cs

/-- Lines 104-109: `f"{year}-{month}-{day}"` if matched, else `""`. -/
def dobStr (q : String) : String :=
  match dateSearch q.data with
  | some (d, m, y) => String.mk y ++ "-" ++ String.mk m ++ "-" ++ String.mk d
  | none => ""

/- ------------------------------------------------------------------
Address extraction, line 113:
`re.search(r'(?:and\s+)?address\s+(.+)$', query, re.IGNORECASE)`.
The optional `and\s+` prefix never changes the captured group (it only
moves the match start), so the search is by leftmost `address` occurrence
whose tail matches.  After `address`, the greedy `\s+` takes the maximal
whitespace run; `(.+)` needs at least one character, so if the string ends
inside the run, `\s+` gives one character back (possible only when the run
has length at least 2).
------------------------------------------------------------------ -/

def addrAt (t : List Char) : Option (List Char) :=
  if (t.takeWhile pyWS).length = 0 then none
  else if t.dropWhile pyWS ≠ [] then some (t.dropWhile pyWS)
  else if 2 ≤ (t.takeWhile pyWS).length then some (t.drop ((t.takeWhile pyWS).length - 1))
  else none

def addrSearch : List Char → Option (List Char)
  | [] => none
  | c :: cs =>
    if preCI "address".data (c :: cs) = true then
      match addrAt ((c :: cs).drop 7) with
      | some v => some v
      | none => addrSearch cs
    else addrSearch cs

/-- Line 114: `addr_match.group(1).strip() if addr_match else ""`. -/
def addrStr (q : String) : String :=
  match addrSearch q.data with
  | some l => String.mk (pyStrip l)
  | none => ""

/- ------------------------------------------------------------------
Assembled create_employee arguments and warning (lines 94-119).
------------------------------------------------------------------ -/

structure EmployeeArgs where
  employee_name : String
  nif : Nat
  date_of_birth : String
  address : String
  deriving DecidableEq

/-- Line 119. -/
def nameWarning : String :=
  "Warning: Employee name not parsed correctly. Using default \x27John Doe\x27."

/-- Line 137. -/
def sumWarning : String :=
  "Couldn\x27t find two numbers in the query; using defaults 5 and 3."

/-- Line 95: `name_match.group(1).strip() if name_match else "John Doe"`. -/
def nameOrDefault (q : String) : String :=
  match extractName q with
  | some l => String.mk (pyStrip l)
  | none => "John Doe"

/-- Lines 94-119: the argument record plus the warning list (line 118
appends the warning when the parsed name is falsy, i.e. empty, or equals
the default). -/
def createEmployeeArgs (q : String) : EmployeeArgs × List String :=
  let nm := nameOrDefault q
  (⟨nm, nifVal q, dobStr q, addrStr q⟩,
    if nm = "" ∨ nm = "John Doe" then [nameWarning] else [])

/- ------------------------------------------------------------------
sum_numbers arguments (lines 131-137): `re.findall(r'\d+', query)`.
------------------------------------------------------------------ -/

/-- `re.findall(r'\d+', s)`: maximal digit runs, left to right.  `cur`
holds the digits of the run in progress, in reverse. -/
def runsGo (cur : List Char) : List Char → List (List Char)
  | [] => if cur = [] then [] else [cur.reverse]
  | c :: cs =>
    if c.isDigit = true then runsGo (c :: cur) cs
    else (if cur = [] then [] else [cur.reverse]) ++ runsGo [] cs

def digitRuns (q : String) : List (List Char) := runsGo [] q.data

/-- Line 131: `[int(num) for num in re.findall(r'\d+', query)]`. -/
def numsOf (q : String) : List Nat := (digitRuns q).map digitsVal

/-- Lines 132-137: first two numbers, or the defaults 5 and 3 plus the
warning. -/
def sumArgs (q : String) : (Nat × Nat) × List String :=
  match numsOf q with
  | n1 :: n2 :: _ => ((n1, n2), [])
  | _ => ((5, 3), [sumWarning])

/- ------------------------------------------------------------------
Tool results and trace segments (lines 121-124 and 139-143).
------------------------------------------------------------------ -/

/-- The heterogeneous result payload of `session.call_tool`: it may or may
not expose a `content` attribute.  `raw` is the textual form `str(result)`
of the whole payload; `content` is `str(result.content)` when present. -/
inductive ToolResult where
  | withContent (content : String) (raw : String)
  | plain (raw : String)
  deriving DecidableEq

/-- `result.content if hasattr(result, 'content') else result` (line 122). -/
def contentOrRaw : ToolResult → String
  | .withContent c _ => c
  | .plain r => r

/-- `f"{result}"` (line 140): the raw textual form, never the content. -/
def rawText : ToolResult → String
  | .withContent _ r => r
  | .plain r => r

/-- Python dict repr of the create_employee argument record, as
interpolated on line 122 (insertion order of lines 95, 100, 107, 114). -/
def employeeArgsRepr (a : EmployeeArgs) : String :=
  "\x7b\x27employee_name\x27: \x27" ++ a.employee_name ++ "\x27, \x27nif\x27: " ++
    toString a.nif ++ ", \x27date_of_birth\x27: \x27" ++ a.date_of_birth ++
    "\x27, \x27address\x27: \x27" ++ a.address ++ "\x27\x7d"

/-- Python dict repr of the sum_numbers argument record (line 140). -/
def sumArgsRepr (p : Nat × Nat) : String :=
  "\x7b\x27number1\x27: " ++ toString p.1 ++ ", \x27number2\x27: " ++
    toString p.2 ++ "\x7d"

/-- Line 122: the create_employee trace segment uses the nested content
when present, otherwise the raw form. -/
def createTrace (a : EmployeeArgs) (r : ToolResult) : String :=
  "[Calling tool create_employee with args " ++ employeeArgsRepr a ++
    "]\nResult: " ++ contentOrRaw r

/-- Line 140: the sum_numbers trace segment interpolates the raw result
directly, with no content check. -/
def sumTrace (p : Nat × Nat) (r : ToolResult) : String :=
  "[Calling tool sum_numbers with args " ++ sumArgsRepr p ++
    "]\nResult: " ++ rawText r

/-- The external collaborators of one query cycle: the generative advisory
text (line 83), the payload returned by the one tool call of the cycle,
and the follow-up generated text (lines 125 and 144). -/
structure Env where
  advisory : String
  toolResult : ToolResult
  followUpText : String

/-- Python `"\n".join`. -/
def joinNL : List String → String
  | [] => ""
  | [s] => s
  | s :: rest => s ++ "\n" ++ joinNL rest

/-- `process_query` (lines 55-147): the composed response, with the
external calls supplied by `e`. -/
def processQuery (e : Env) (q : String) : String :=
  if createTrigger q e.advisory = true then
    joinNL ([e.advisory] ++ (createEmployeeArgs q).2 ++
      [createTrace (createEmployeeArgs q).1 e.toolResult, e.followUpText])
  else if sumTrigger q e.advisory = true then
    joinNL ([e.advisory] ++ (sumArgs q).2 ++
      [sumTrace (sumArgs q).1 e.toolResult, e.followUpText])
  else joinNL [e.advisory]

/- ------------------------------------------------------------------
`connect_to_server` (lines 32-44): the extension check happens before any
transport object is built, so the error value carries no transport.
------------------------------------------------------------------ -/

inductive ConnectError where
  | unsupportedScriptKind
  deriving DecidableEq

/-- Python `s.endswith(suf)`: compare the last `len(suf)` characters. -/
def endsWithL (suf s : List Char) : Bool :=
  decide (s.drop (s.length - suf.length) = suf)

/-- Lines 32-37: raise before building `StdioServerParameters` when the
extension is recognized by neither check; otherwise pick the fixed launch
command. -/
def connectCommand (path : String) : Except ConnectError String :=
  let isPy := endsWithL ".py".data path.data
  let isJs := endsWithL ".js".data path.data
  if isPy = false ∧ isJs = false then .error .unsupportedScriptKind
  else .ok (if isPy = true then "python" else "node")

/- ------------------------------------------------------------------
One iteration of `chat_loop` (lines 154-165).
------------------------------------------------------------------ -/

def quitL : List Char := "quit".data

inductive ChatAction where
  | quit
  | runQuery (q : String)
  deriving DecidableEq

/-- Lines 156-161: the raw input line is stripped; the stripped text is
compared (lowercased) against the quit sentinel, and otherwise passed as
the query to `process_query`. -/
def chatIter (raw : String) : ChatAction :=
  if strEqCI quitL (pyStrip raw.data) = true then .quit
  else .runQuery (stripStr raw)

inductive StepResult where
  | terminated
  | continued (output : String)
  deriving DecidableEq

/-- One loop body execution: `outcome` is what `process_query` did (normal
return or raised exception); the `except` arm on lines 164-165 turns a
raised exception into a printed message and the loop continues. -/
def chatStep (raw : String) (outcome : Except String String) : StepResult :=
  match chatIter raw with
  | .quit => .terminated
  | .runQuery _ =>
    match outcome with
    | .ok r => .continued ("\n" ++ r)
    | .error e => .continued ("\nError: " ++ e)

/- ------------------------------------------------------------------
The reading of claim C2 against which the code is compared: employee-name
extraction with `name`/`named` required to occur as whole words.
------------------------------------------------------------------ -/

/-- Python word character (`\w`, ASCII). -/
def isWordChar (c : Char) : Bool := c.isAlphanum || c == '_'

/-- Follows the claim's words: like `nameSearch`, but the occurrence of
`name`/`named` must be a word, i.e. not be preceded by a word character
(`prev` is the character before the current position). -/
def nameSearchWord : Option Char → List Char → Option (List Char)
  | _, [] => none
  | prev, c :: cs =>
    if (match prev with | none => true | some p => !(isWordChar p)) = true then
      if preCI "named".data (c :: cs) = true then
        match nameRest ((c :: cs).drop 5) with
        | some r => some r
        | none => nameSearchWord (some c) cs
      else if preCI "name".data (c :: cs) = true then
        match nameRest ((c :: cs).drop 4) with
        | some r => some r
        | none => nameSearchWord (some c) cs
      else nameSearchWord (some c) cs
    else nameSearchWord (some c) cs

/-- Name extraction as claim C2 words it (word-boundary reading). -/
def extractNameWord (q : String) : Option (List Char) := nameSearchWord none q.data

/- ==================================================================
Helper lemmas.
================================================================== -/

/-- The characters captured by `([^,]+?)` never include a comma. -/
theorem capGo_not_comma : ∀ (u acc : List Char), ',' ∉ acc →
    ∀ l, capGo acc u = some l → ',' ∉ l := by
  intro u
  induction u with
  | nil => intro acc ha l h; simp [capGo] at h
  | cons c cs ih =>
    intro acc ha l h
    simp only [capGo] at h
    by_cases hc : c = ','
    · rw [if_pos hc] at h; exact absurd h (by simp)
    · rw [if_neg hc] at h
      by_cases ht : nameTermCheck cs = true
      · rw [if_pos ht] at h
        injection h with h'
        subst h'
        simp only [List.mem_reverse, List.mem_cons]
        rintro (h1 | h2)
        · exact hc h1.symm
        · exact ha h2
      · rw [if_neg ht] at h
        refine ih (c :: acc) ?_ l h
        simp only [List.mem_cons]
        rintro (h1 | h2)
        · exact hc h1.symm
        · exact ha h2

/-- Backtracking over the greedy `\s+` preserves the no-comma property of
the capture. -/
theorem wsBack_not_comma : ∀ (k : Nat) (t l : List Char),
    wsBack t k = some l → ',' ∉ l := by
  intro k
  induction k with
  | zero => intro t l h; simp [wsBack] at h
  | succ k ih =>
    intro t l h
    simp only [wsBack] at h
    cases htc : tryCap (t.drop (k + 1)) with
    | some r =>
      simp only [htc] at h
      injection h with h'
      subst h'
      simp only [tryCap] at htc
      exact capGo_not_comma _ [] (by simp) _ htc
    | none =>
      simp only [htc] at h
      exact ih t l h

/-- Whatever position the search matches at, the captured name has no
comma in it. -/
theorem nameSearch_not_comma : ∀ (s l : List Char),
    nameSearch s = some l → ',' ∉ l := by
  intro s
  induction s with
  | nil => intro l h; simp [nameSearch] at h
  | cons c cs ih =>
    intro l h
    simp only [nameSearch] at h
    by_cases h5 : preCI "named".data (c :: cs) = true
    · rw [if_pos h5] at h
      cases hr : nameRest ((c :: cs).drop 5) with
      | some r =>
        simp only [hr] at h
        injection h with h'
        subst h'
        simp only [nameRest] at hr
        exact wsBack_not_comma _ _ _ hr
      | none =>
        simp only [hr] at h
        exact ih l h
    · rw [if_neg h5] at h
      by_cases h4 : preCI "name".data (c :: cs) = true
      · rw [if_pos h4] at h
        cases hr : nameRest ((c :: cs).drop 4) with
        | some r =>
          simp only [hr] at h
          injection h with h'
          subst h'
          simp only [nameRest] at hr
          exact wsBack_not_comma _ _ _ hr
        | none =>
          simp only [hr] at h
          exact ih l h
      · rw [if_neg h4] at h
        exact ih l h

/-- Every run produced by the digit-run scanner is a nonempty list of
digits. -/
theorem runsGo_digits : ∀ (l cur : List Char), cur.all Char.isDigit = true →
    ∀ r ∈ runsGo cur l, r ≠ [] ∧ r.all Char.isDigit = true := by
  intro l
  induction l with
  | nil =>
    intro cur hc r hr
    simp only [runsGo] at hr
    by_cases h0 : cur = []
    · rw [if_pos h0] at hr; simp at hr
    · rw [if_neg h0] at hr
      simp only [List.mem_singleton] at hr
      subst hr
      refine ⟨by simpa using h0, ?_⟩
      rw [List.all_eq_true] at hc ⊢
      intro x hx
      exact hc x (List.mem_reverse.mp hx)
  | cons c cs ih =>
    intro cur hc r hr
    simp only [runsGo] at hr
    by_cases hd : c.isDigit = true
    · rw [if_pos hd] at hr
      exact ih (c :: cur) (by simp [List.all_cons, hd, hc]) r hr
    · rw [if_neg hd] at hr
      rcases List.mem_append.mp hr with h1 | h2
      · by_cases h0 : cur = []
        · rw [if_pos h0] at h1; simp at h1
        · rw [if_neg h0] at h1
          simp only [List.mem_singleton] at h1
          subst h1
          refine ⟨by simpa using h0, ?_⟩
          rw [List.all_eq_true] at hc ⊢
          intro x hx
          exact hc x (List.mem_reverse.mp hx)
      · exact ih [] rfl r h2

/-- A successful `\d\x7bn\x7d` parse returns exactly `n` digits. -/
theorem takeDigits_shape : ∀ (n : Nat) (t d r : List Char),
    takeDigits n t = some (d, r) → d.length = n ∧ d.all Char.isDigit = true := by
  intro n t d r h
  simp only [takeDigits] at h
  by_cases hc : (t.take n).length = n ∧ (t.take n).all Char.isDigit = true
  · rw [if_pos hc] at h
    injection h with h'
    injection h' with h1 h2
    subst h1
    exact hc
  · rw [if_neg hc] at h
    exact absurd h (by simp)

/-- A successful `(\d{2}/\d{2}/\d{4})` parse has the 2/2/4 digit shape. -/
theorem dateDigits_shape : ∀ (t d m y : List Char),
    dateDigits t = some (d, m, y) →
    d.length = 2 ∧ m.length = 2 ∧ y.length = 4 ∧ d.all Char.isDigit = true ∧
      m.all Char.isDigit = true ∧ y.all Char.isDigit = true := by
  intro t d m y h
  simp only [dateDigits] at h
  cases h1 : takeDigits 2 t with
  | none => simp only [h1] at h; exact absurd h (by simp)
  | some p1 =>
    obtain ⟨dd, r1⟩ := p1
    simp only [h1] at h
    cases h2 : slashThen r1 with
    | none => simp only [h2] at h; exact absurd h (by simp)
    | some r2 =>
      simp only [h2] at h
      cases h3 : takeDigits 2 r2 with
      | none => simp only [h3] at h; exact absurd h (by simp)
      | some p2 =>
        obtain ⟨mm, r3⟩ := p2
        simp only [h3] at h
        cases h4 : slashThen r3 with
        | none => simp only [h4] at h; exact absurd h (by simp)
        | some r4 =>
          simp only [h4] at h
          cases h5 : takeDigits 4 r4 with
          | none => simp only [h5] at h; exact absurd h (by simp)
          | some p3 =>
            obtain ⟨yy, r5⟩ := p3
            simp only [h5] at h
            injection h with h'
            injection h' with ha h''
            injection h'' with hb hc
            rw [← ha, ← hb, ← hc]
            have s1 := takeDigits_shape 2 t dd r1 h1
            have s2 := takeDigits_shape 2 r2 mm r3 h3
            have s3 := takeDigits_shape 4 r4 yy r5 h5
            exact ⟨s1.1, s2.1, s3.1, s1.2, s2.2, s3.2⟩

/-- Shape fact lifted through `\s+of\s+birth\s+`. -/
theorem dateAt_shape : ∀ (t d m y : List Char), dateAt t = some (d, m, y) →
    d.length = 2 ∧ m.length = 2 ∧ y.length = 4 ∧ d.all Char.isDigit = true ∧
      m.all Char.isDigit = true ∧ y.all Char.isDigit = true := by
  intro t d m y h
  simp only [dateAt] at h
  cases h1 : wsThenCI "of".data t with
  | none => simp only [h1] at h; exact absurd h (by simp)
  | some t1 =>
    simp only [h1] at h
    cases h2 : wsThenCI "birth".data t1 with
    | none => simp only [h2] at h; exact absurd h (by simp)
    | some t2 =>
      simp only [h2] at h
      by_cases h3 : 1 ≤ (t2.takeWhile pyWS).length
      · rw [if_pos h3] at h
        exact dateDigits_shape _ d m y h
      · rw [if_neg h3] at h
        exact absurd h (by simp)

/-- Shape fact lifted through the leftmost search for `date`. -/
theorem dateSearch_shape : ∀ (s d m y : List Char),
    dateSearch s = some (d, m, y) →
    d.length = 2 ∧ m.length = 2 ∧ y.length = 4 ∧ d.all Char.isDigit = true ∧
      m.all Char.isDigit = true ∧ y.all Char.isDigit = true := by
  intro s
  induction s with
  | nil => intro d m y h; simp [dateSearch] at h
  | cons c cs ih =>
    intro d m y h
    simp only [dateSearch] at h
    by_cases hp : preCI "date".data (c :: cs) = true
    · rw [if_pos hp] at h
      cases ha : dateAt ((c :: cs).drop 4) with
      | none =>
        simp only [ha] at h
        exact ih d m y h
      | some v =>
        simp only [ha] at h
        injection h with h'
        subst h'
        exact dateAt_shape _ d m y ha
    · rw [if_neg hp] at h
      exact ih d m y h

/- ==================================================================
Claim theorems.
================================================================== -/

/-- Claim C1, counterexample: for the sum_numbers tool the trace segment
(line 140) does not use the nested content field of a result that has
one; the claim's uniform normalization predicts the content-based display,
and the two differ at this concrete result. -/
theorem c1_counterexample :
    sumTrace (5, 3) (ToolResult.withContent "inner" "outer") ≠
      "[Calling tool sum_numbers with args " ++ sumArgsRepr (5, 3) ++
        "]\nResult: " ++ contentOrRaw (ToolResult.withContent "inner" "outer") := by
  decide

/-- Claim C1, amended: only the create_employee trace (line 122)
normalizes the result, using the nested content field when the result
exposes one and the raw textual form otherwise; the sum_numbers trace
(line 140) always interpolates the raw result. -/
theorem c1_result_display :
    (∀ (a : EmployeeArgs) (r : ToolResult),
        createTrace a r = "[Calling tool create_employee with args " ++
          employeeArgsRepr a ++ "]\nResult: " ++ contentOrRaw r)
    ∧ (∀ (p : Nat × Nat) (r : ToolResult),
        sumTrace p r = "[Calling tool sum_numbers with args " ++
          sumArgsRepr p ++ "]\nResult: " ++ rawText r)
    ∧ (∀ c raw : String, contentOrRaw (ToolResult.withContent c raw) = c)
    ∧ (∀ raw : String, contentOrRaw (ToolResult.plain raw) = raw)
    ∧ (∀ c raw : String, rawText (ToolResult.withContent c raw) = raw) :=
  ⟨fun _ r => by cases r <;> rfl, fun _ r => by cases r <;> rfl,
   fun _ _ => rfl, fun _ => rfl, fun _ _ => rfl⟩

/-- Claim C2, counterexample: the regex on line 94 has no word boundary,
so `named` matches inside the word `codenamed` and the extracted name is
`Bond` with no warning, while the claim's word reading finds no match and
predicts the default `John Doe` plus a warning. -/
theorem c2_counterexample :
    classify "Create employee codenamed Bond" "" = Intent.createEmployee
    ∧ (createEmployeeArgs "Create employee codenamed Bond").1.employee_name = "Bond"
    ∧ (createEmployeeArgs "Create employee codenamed Bond").2 = []
    ∧ extractNameWord "Create employee codenamed Bond" = none :=
  ⟨by decide, by decide, by decide, by decide⟩

/-- Claim C2, amended: the employee name is the text following an
occurrence of `name` or `named` matched as a raw substring (possibly
inside a longer word), up to but not including a comma or a
whitespace-preceded `nif`/`date`/`and`/end-of-string, trimmed; when no
match exists the default `John Doe` is used, and exactly one name-default
warning is appended precisely when the stored name is empty or equals
`John Doe` (which covers the no-match and default-equal cases); the
captured text never contains a comma; and `Create an employee` yields the
all-default record plus the warning. -/
theorem c2_name_extraction :
    (∀ q : String, (createEmployeeArgs q).1.employee_name =
        (match extractName q with
         | some l => String.mk (pyStrip l)
         | none => "John Doe"))
    ∧ (∀ q : String, (createEmployeeArgs q).2 =
        (if (createEmployeeArgs q).1.employee_name = "" ∨
            (createEmployeeArgs q).1.employee_name = "John Doe"
         then [nameWarning] else []))
    ∧ (∀ (q : String) (l : List Char), extractName q = some l → ',' ∉ l)
    ∧ createEmployeeArgs "Create an employee" =
        (⟨"John Doe", 0, "", ""⟩, [nameWarning]) := by
  refine ⟨fun q => rfl, fun q => rfl, ?_, by decide⟩
  intro q l h
  exact nameSearch_not_comma q.data l h

/-- Claim C2, witness: the hypothesis-bearing conjunct applied at the
concrete query `name Bob`, whose captured name is `Bob`. -/
theorem c2_name_extraction_witness : ',' ∉ (['B', 'o', 'b'] : List Char) :=
  c2_name_extraction.2.2.1 "name Bob" ['B', 'o', 'b'] (by decide)

/-- Claim C3: classification is first-match-wins: the create_employee
triggers (query substrings or advisory marker, line 89) take precedence,
then the sum_numbers triggers (line 128), else DirectAnswer. -/
theorem c3_classifier_dispatch : ∀ q advisory : String,
    (classify q advisory = Intent.createEmployee ↔ createTrigger q advisory = true)
    ∧ (classify q advisory = Intent.sumNumbers ↔
        (createTrigger q advisory = false ∧ sumTrigger q advisory = true))
    ∧ (classify q advisory = Intent.direct ↔
        (createTrigger q advisory = false ∧ sumTrigger q advisory = false))
    ∧ createTrigger q advisory =
        (containsCI "employee".data q.data || containsCI "create".data q.data ||
          containsSub createMarker advisory.data)
    ∧ sumTrigger q advisory =
        (containsSub sumMarker advisory.data || containsCI "add".data q.data ||
          containsCI "sum".data q.data || containsCI "plus".data q.data) := by
  intro q advisory
  refine ⟨?_, ?_, ?_, rfl, rfl⟩ <;>
    cases hc : createTrigger q advisory <;> cases hs : sumTrigger q advisory <;>
      simp [classify, hc, hs]

/-- Claim C4: sum_numbers argument extraction takes the maximal digit
runs of the query in order (each a nonempty all-digit run); the first two
become number1/number2 with no warning; fewer than two yields the 5/3
defaults plus exactly one warning; with the claim's two concrete
examples. -/
theorem c4_sum_numbers_extraction :
    (∀ q : String, (numsOf q).length < 2 → sumArgs q = ((5, 3), [sumWarning]))
    ∧ (∀ (q : String) (n1 n2 : Nat) (rest : List Nat),
        numsOf q = n1 :: n2 :: rest → sumArgs q = ((n1, n2), []))
    ∧ (∀ (q : String) (r : List Char), r ∈ digitRuns q →
        r ≠ [] ∧ r.all Char.isDigit = true)
    ∧ numsOf "add 7 and 15" = [7, 15]
    ∧ sumArgs "add 7 and 15" = ((7, 15), [])
    ∧ sumArgs "please sum some numbers" = ((5, 3), [sumWarning]) := by
  refine ⟨?_, ?_, ?_, by decide, by decide, by decide⟩
  · intro q h
    simp only [sumArgs]
    cases hn : numsOf q with
    | nil => simp only [hn]
    | cons n1 t =>
      cases t with
      | nil => simp only [hn]
      | cons n2 rest =>
        rw [hn] at h
        simp only [List.length_cons] at h
        omega
  · intro q n1 n2 rest h
    simp [sumArgs, h]
  · intro q r hr
    exact runsGo_digits q.data [] rfl r hr

/-- Claim C4, witness: the hypothesis-bearing conjuncts applied at the
claim's concrete queries. -/
theorem c4_sum_numbers_extraction_witness :
    sumArgs "please sum some numbers" = ((5, 3), [sumWarning])
    ∧ sumArgs "add 7 and 15" = ((7, 15), [])
    ∧ ((['7'] : List Char) ≠ [] ∧ (['7'] : List Char).all Char.isDigit = true) :=
  ⟨c4_sum_numbers_extraction.1 "please sum some numbers" (by decide),
   c4_sum_numbers_extraction.2.1 "add 7 and 15" 7 15 [] (by decide),
   c4_sum_numbers_extraction.2.2.1 "add 7 and 15" ['7'] (by decide)⟩

/-- Claim C5: the fully populated example query extracts exactly the
claimed record with no warnings (and is classified as create_employee). -/
theorem c5_jane_smith_example :
    classify "Create employee named Jane Smith, nif 123456789, date of birth 05/03/1990 and address 10 Main St" ""
      = Intent.createEmployee
    ∧ createEmployeeArgs "Create employee named Jane Smith, nif 123456789, date of birth 05/03/1990 and address 10 Main St"
      = (⟨"Jane Smith", 123456789, "1990-03-05", "10 Main St"⟩, []) :=
  ⟨by decide, by decide⟩

/-- Claim C6: date_of_birth is the reordered `YYYY-MM-DD` form of a
matched 2/2/4-digit `DD/MM/YYYY` token after `date of birth`, the empty
string when absent, and no calendar validation happens: `99/99/9999`
passes through as `9999-99-99`. -/
theorem c6_date_of_birth :
    (∀ q : String, dateSearch q.data = none → dobStr q = "")
    ∧ (∀ (q : String) (d m y : List Char), dateSearch q.data = some (d, m, y) →
        dobStr q = String.mk y ++ "-" ++ String.mk m ++ "-" ++ String.mk d
        ∧ d.length = 2 ∧ m.length = 2 ∧ y.length = 4
        ∧ d.all Char.isDigit = true ∧ m.all Char.isDigit = true
        ∧ y.all Char.isDigit = true)
    ∧ dobStr "Create employee, date of birth 99/99/9999" = "9999-99-99"
    ∧ dobStr "Create an employee" = "" := by
  refine ⟨?_, ?_, by decide, by decide⟩
  · intro q h
    simp [dobStr, h]
  · intro q d m y h
    exact ⟨by simp [dobStr, h], dateSearch_shape q.data d m y h⟩

/-- Claim C6, witness: both hypothesis-bearing conjuncts applied at
concrete queries. -/
theorem c6_date_of_birth_witness :
    dobStr "no date here" = ""
    ∧ (dobStr "Create employee, date of birth 99/99/9999" =
        String.mk ['9', '9', '9', '9'] ++ "-" ++ String.mk ['9', '9'] ++ "-" ++
          String.mk ['9', '9']
       ∧ (['9', '9'] : List Char).length = 2
       ∧ (['9', '9'] : List Char).length = 2
       ∧ (['9', '9', '9', '9'] : List Char).length = 4
       ∧ (['9', '9'] : List Char).all Char.isDigit = true
       ∧ (['9', '9'] : List Char).all Char.isDigit = true
       ∧ (['9', '9', '9', '9'] : List Char).all Char.isDigit = true) :=
  ⟨c6_date_of_birth.1 "no date here" (by decide),
   c6_date_of_birth.2.1 "Create employee, date of birth 99/99/9999"
     ['9', '9'] ['9', '9'] ['9', '9', '9', '9'] (by decide)⟩

/-- If a path ends in `.js` it cannot also end in `.py`: both tests
compare the same final three characters against different literals. -/
theorem ends_js_not_py : ∀ l : List Char,
    endsWithL ".js".data l = true → endsWithL ".py".data l = false := by
  intro l h
  simp only [endsWithL] at h ⊢
  have h' : l.drop (l.length - (".js".data).length) = ".js".data :=
    of_decide_eq_true h
  apply decide_eq_false
  intro hc
  have e2 : (".py".data : List Char).length = (".js".data : List Char).length := rfl
  rw [e2] at hc
  rw [h'] at hc
  exact absurd hc (by decide)

/-- Claim C7: a path ending in neither recognized extension fails with
the UnsupportedScriptKind error before any transport value exists (the
error constructor carries nothing); a recognized extension selects the
corresponding fixed launch command. -/
theorem c7_connect_extension_check :
    (∀ p : String, endsWithL ".py".data p.data = false →
        endsWithL ".js".data p.data = false →
        connectCommand p = Except.error ConnectError.unsupportedScriptKind)
    ∧ (∀ p : String, endsWithL ".py".data p.data = true →
        connectCommand p = Except.ok "python")
    ∧ (∀ p : String, endsWithL ".js".data p.data = true →
        connectCommand p = Except.ok "node") := by
  refine ⟨?_, ?_, ?_⟩
  · intro p h1 h2
    simp [connectCommand, h1, h2]
  · intro p h1
    simp [connectCommand, h1]
  · intro p h2
    have h1 := ends_js_not_py p.data h2
    simp [connectCommand, h1, h2]

/-- Claim C7, witness: the three conjuncts at concrete paths. -/
theorem c7_connect_extension_check_witness :
    connectCommand "server.txt" = Except.error ConnectError.unsupportedScriptKind
    ∧ connectCommand "server.py" = Except.ok "python"
    ∧ connectCommand "server.js" = Except.ok "node" :=
  ⟨c7_connect_extension_check.1 "server.txt" (by decide) (by decide),
   c7_connect_extension_check.2.1 "server.py" (by decide),
   c7_connect_extension_check.2.2 "server.js" (by decide)⟩

/-- Claim C8: one loop iteration terminates the session exactly when the
stripped input is the case-insensitive quit sentinel; any exception raised
while processing a non-quit input is caught and rendered as an error
message, and the loop continues. -/
theorem c8_loop_isolation :
    (∀ (raw : String) (outcome : Except String String),
        chatStep raw outcome = StepResult.terminated ↔
          strEqCI quitL (pyStrip raw.data) = true)
    ∧ (∀ raw e : String, strEqCI quitL (pyStrip raw.data) = false →
        chatStep raw (Except.error e) = StepResult.continued ("\nError: " ++ e)) := by
  constructor
  · intro raw outcome
    by_cases h : strEqCI quitL (pyStrip raw.data) = true
    · simp [chatStep, chatIter, h]
    · cases outcome <;> simp [chatStep, chatIter, h]
  · intro raw e h
    simp [chatStep, chatIter, h]

/-- Claim C8, witness: a failing non-quit query is rendered as an error
message and the loop continues. -/
theorem c8_loop_isolation_witness :
    chatStep "bad query" (Except.error "boom") =
      StepResult.continued ("\nError: " ++ "boom") :=
  c8_loop_isolation.2 "bad query" "boom" (by decide)

/-- Claim C9: a query classified DirectAnswer composes a response that is
exactly the advisory text, with no warnings, trace or follow-up. -/
theorem c9_direct_answer : ∀ (e : Env) (q : String),
    classify q e.advisory = Intent.direct → processQuery e q = e.advisory := by
  intro e q h
  simp only [classify] at h
  by_cases hc : createTrigger q e.advisory = true
  · rw [if_pos hc] at h
    exact absurd h (by simp)
  · rw [if_neg hc] at h
    by_cases hs : sumTrigger q e.advisory = true
    · rw [if_pos hs] at h
      exact absurd h (by simp)
    · simp only [processQuery]
      rw [if_neg hc, if_neg hs]
      simp [joinNL]

/-- Claim C9, witness: a query with no tool triggers yields exactly the
advisory text. -/
theorem c9_direct_answer_witness :
    processQuery ⟨"adv", ToolResult.plain "r", "f"⟩ "hello there" = "adv" :=
  c9_direct_answer ⟨"adv", ToolResult.plain "r", "f"⟩ "hello there" (by decide)

/-- Claim C10: every input line is stripped before the quit check and
before being handed to the pipeline: the loop action on a raw line is
quit exactly when the stripped line matches the sentinel
case-insensitively, and the query passed on is always the stripped text. -/
theorem c10_input_stripping :
    (∀ raw : String, chatIter raw = ChatAction.quit ↔
        strEqCI quitL (pyStrip raw.data) = true)
    ∧ (∀ raw q : String, chatIter raw = ChatAction.runQuery q → q = stripStr raw)
    ∧ chatIter "   QuIt  " = ChatAction.quit
    ∧ chatIter "  add 2 and 3  " = ChatAction.runQuery "add 2 and 3" := by
  refine ⟨?_, ?_, by decide, by decide⟩
  · intro raw
    by_cases h : strEqCI quitL (pyStrip raw.data) = true <;> simp [chatIter, h]
  · intro raw q h
    simp only [chatIter] at h
    by_cases hq : strEqCI quitL (pyStrip raw.data) = true
    · rw [if_pos hq] at h
      exact absurd h (by simp)
    · rw [if_neg hq] at h
      injection h with h'
      exact h'.symm

/-- Claim C10, witness: the query handed to the pipeline is the stripped
input. -/
theorem c10_input_stripping_witness : ("hi" : String) = stripStr "  hi " :=
  c10_input_stripping.2.1 "  hi " "hi" (by decide)

end Client2
